import Mathlib

/-!
Verification of the media-generator backend against its specification.

The development shallowly embeds the Python modules
`backend/src/core/video_generator.py`, `backend/src/core/audio_generator.py`
and `backend/src/main.py`:

* pure list manipulations become Lean functions on lists;
* audio byte strings are modelled by their decode outcome, an
  `Option ℚ` holding the decoded duration in seconds (`none` when the
  decoder raises);
* durations are exact rationals (floating-point rounding noise of the
  Python runtime is abstracted away; every claim checked here concerns
  policy-level durations such as 0.1 s, 0.5 s, 3.0 s, 10 s);
* the effectful pipeline of `main.py` becomes a total function over an
  explicit cancellation schedule, and the HTTP handlers become a step
  function on an explicit system state.
-/

/-- An image, as handled by `VideoGenerator`.  `pic i` is an arbitrary
generated image; `placeholder` is the black 1280x720 image produced by
`VideoGenerator._create_placeholder_image`. -/

inductive Img where
  | pic (id : Nat)
  | placeholder
  deriving DecidableEq

/-- Model of `VideoGenerator._create_placeholder_image`: a black 1280x720 RGB image. -/

def placeholder_image : Img := Img.placeholder

/-- Model of `VideoGenerator._create_silence_bytes(d)`: WAV silence of `d` seconds.
Audio byte strings are modelled by their decode outcome, so the silence is
the byte string that decodes to duration `d`. -/

def silence_bytes (d : ℚ) : Option ℚ := some d

/-- One iteration bundle of the `while len(xs) < target` loops of
`VideoGenerator._balance_sequences` (lines 102-115): run `fuel` iterations,
each appending the last element when the list is non-empty and the fallback
element when it is empty.  The Python loop runs `target - len(xs)` times
since each iteration grows the list by one. -/

def extend_loop {α : Type} (fallback : α) : Nat → List α → List α
  | 0, xs => xs
  | fuel + 1, xs =>
    match xs.getLast? with
    | some last => extend_loop fallback fuel (xs ++ [last])
    | none => extend_loop fallback fuel (xs ++ [fallback])

/-- Model of `VideoGenerator._balance_sequences` (video_generator.py lines 93-117):
extend each list to `target = max` of the two lengths, repeating the last
element (or inserting the fallback when empty), then slice both to
`target`. -/

def balance_sequences (images : List Img) (audio : List (Option ℚ)) :
    List Img × List (Option ℚ) :=
  let target := max images.length audio.length
  let images2 := extend_loop placeholder_image (target - images.length) images
  let audio2 := extend_loop (silence_bytes 3) (target - audio.length) audio
  (images2.take target, audio2.take target)

/-! ### Basic facts about `extend_loop` -/

/-! ### Timeline Composer (`video_generator.py` lines 119-241) -/

/-- Model of `VideoGenerator._get_audio_durations` (lines 119-142): decode each audio
segment to obtain its duration; when decoding raises, append the default of
3.0 seconds instead. -/

def get_audio_durations (segs : List (Option ℚ)) : List ℚ :=
  segs.map (fun d =>
    match d with
    | some dur => dur
    | none => 3)

/-- A moviepy audio clip, abstracted to its duration. -/

structure AudioTrackClip where
  duration : ℚ
  deriving DecidableEq

/-- A moviepy video clip, abstracted to its duration. -/

structure VideoTrackClip where
  duration : ℚ
  deriving DecidableEq

/-- One synchronized scene segment of the final timeline. -/

structure Segment where
  duration : ℚ
  deriving DecidableEq

/-- Model of `VideoGenerator._create_audio_clips` (lines 180-205): load each audio
segment as a clip (the 0.1 s audio fades act inside the clip and keep its
duration); when loading raises, substitute a silent clip of 3.0 seconds. -/

def create_audio_clips (segs : List (Option ℚ)) : List AudioTrackClip :=
  segs.map (fun d =>
    match d with
    | some dur => { duration := dur }
    | none => { duration := 3 })

/-- Model of `VideoGenerator._create_image_clips` (lines 144-178): pair each image
with its planned duration and build an image clip of that duration (resize
and the fade-in/fade-out act inside the clip and keep its duration). -/

def create_image_clips (images : List Img) (durations : List ℚ) :
    List VideoTrackClip :=
  (images.zip durations).map (fun p => { duration := p.2 })

/-- Model of `VideoGenerator._combine_clips`, success path (lines 214-236): for each
paired video and audio clip, set the video clip duration to the audio clip
duration and attach the audio, yielding one segment per pair whose duration
is the audio duration.  The video clip own duration is discarded by
`set_duration`, never the reverse. -/

def combine_clips (videos : List VideoTrackClip) (audios : List AudioTrackClip) :
    List Segment :=
  List.zipWith (fun _v a => { duration := a.duration }) videos audios

/-- Model of `mp.concatenate_videoclips` chains segments end to end, so the timeline
duration is the sum of the segment durations. -/

def total_duration (segments : List Segment) : ℚ :=
  (segments.map Segment.duration).sum

/-- The clip-building part of `create_video_from_sequences` (lines 50-65)
after balancing: compute audio durations, plan the image durations (audio
durations when `image_display_time` is `None`, else the fixed display
time), build the clips and synchronize them. -/

def compose_timeline (images : List Img) (audio : List (Option ℚ))
    (image_display_time : Option ℚ) : List Segment :=
  let audio_durations := get_audio_durations audio
  let image_durations :=
    match image_display_time with
    | none => audio_durations
    | some t => List.replicate images.length t
  combine_clips (create_image_clips images image_durations) (create_audio_clips audio)

/-! ### Composer failure handling (`create_video_from_sequences`, lines 42-91,
and the `_combine_clips` fallback, lines 238-241) -/

/-- The final artifact rendered by `write_videofile`. -/

inductive Artifact where
  | video (segments : List Segment)
  | placeholderBlack (duration : ℚ)
  deriving DecidableEq

/-- Model of `VideoGenerator.create_video_from_sequences` (lines 42-91), with its two
failure points made explicit: `combineFails` is an exception inside
`_combine_clips`, caught at lines 238-241 and degraded to a black clip of
the fixed duration 10 s; `encodeFails` is `write_videofile` raising, caught
by the outer handler at lines 88-91, which returns `False` without writing
any artifact.  Inputs of unequal length are balanced first (line 48).
Returns the success flag of the function together with the artifact written
to `output_path` (when any). -/

def create_video_from_sequences (images : List Img) (audio : List (Option ℚ))
    (image_display_time : Option ℚ) (combineFails encodeFails : Bool) :
    Bool × Option Artifact :=
  let balanced :=
    if images.length ≠ audio.length then balance_sequences images audio
    else (images, audio)
  let timeline : Artifact :=
    if combineFails then Artifact.placeholderBlack 10
    else Artifact.video (compose_timeline balanced.1 balanced.2 image_display_time)
  if encodeFails then (false, none) else (true, some timeline)

/-! ### Audio generator (`audio_generator.py`) -/

/-- Audio data produced by `AudioGenerator`: real synthesized speech for a
text, or a WAV silence of the given duration in seconds.  Both are
non-empty byte strings, so both are truthy in the Python `if audio_data:`
test. -/

inductive AudioOut where
  | synthesized (text : String)
  | silence (duration : ℚ)
  deriving DecidableEq

/-- Model of `AudioGenerator.generate_audio` (audio_generator.py lines 48-121),
parametrized by whether the TTS model initialized and whether the synthesis
call raises.  When the model never initialized (line 69-71) the fallback is
a fixed 3.0-second silence; when synthesis raises (lines 119-121) the
fallback is a silence of `len(text) * 0.1` seconds, computed from the
original text.  Text cleaning on the success path does not affect any
duration and is not tracked. -/

def generate_audio (ttsInitialized synthFails : Bool) (text : String) : AudioOut :=
  if ttsInitialized = false then AudioOut.silence 3
  else if synthFails then AudioOut.silence ((text.length : ℚ) * (1 / 10))
  else AudioOut.synthesized text

/-- One scene sequence dictionary, as consumed by
`AudioGenerator.generate_sequence_audio`: its narration text and whether
the per-sequence body raises before audio is appended (for example an
`IndexError` from an empty `emotions` list). -/

structure SeqInput where
  text : String
  raises : Bool
  deriving DecidableEq

/-- The `for i, sequence in enumerate(sequences)` loop of
`AudioGenerator.generate_sequence_audio` (lines 144-178), with `i` the
running index and `n` the total sequence count.  On success the audio is
appended (it is always truthy) and, when `add_pauses` holds and `i` is not
the last index, a 0.5-second silence is appended after it; when the body
raises, the handler appends a fixed 3.0-second silence and no pause. -/

def generate_sequence_audio_loop (ttsInitialized : Bool) (synthFails : Nat → Bool)
    (n : Nat) (addPauses : Bool) : Nat → List SeqInput → List AudioOut
  | _, [] => []
  | i, s :: rest =>
    if s.raises then
      AudioOut.silence 3 ::
        generate_sequence_audio_loop ttsInitialized synthFails n addPauses (i + 1) rest
    else
      generate_audio ttsInitialized (synthFails i) s.text ::
        ((if addPauses ∧ i < n - 1 then [AudioOut.silence (1 / 2)] else []) ++
          generate_sequence_audio_loop ttsInitialized synthFails n addPauses (i + 1) rest)

/-- Model of `AudioGenerator.generate_sequence_audio` (lines 123-180). -/

def generate_sequence_audio (ttsInitialized : Bool) (synthFails : Nat → Bool)
    (seqs : List SeqInput) (addPauses : Bool) : List AudioOut :=
  generate_sequence_audio_loop ttsInitialized synthFails seqs.length addPauses 0 seqs

/-! ### Processing pipeline (`main.py` lines 430-473) -/

/-- Model of `ProjectStatus` from `models/project.py`. -/

inductive ProjectStatus where
  | created
  | text_analyzing
  | text_analyzed
  | images_generating
  | images_generated
  | videos_generating
  | videos_generated
  | completed
  | failed
  deriving DecidableEq

/-- One read of the `active_processing[project_id]` flag against a
cancellation schedule: `none` means stop-processing is never called during
the run (every read yields `True`); `some k` means the first `k` reads
yield `True` and every later read yields `False` — once `stop_processing`
or `delete_project` sets the flag to `False` (main.py lines 266-267 and
185-186) nothing sets it back during the run. -/

def readFlag : Option Nat → Bool × Option Nat
  | none => (true, none)
  | some 0 => (false, some 0)
  | some (k + 1) => (true, some k)

/-- The per-scene stage loops of `process_image_generation` (lines 524-555)
and `process_video_generation` (lines 568-608): for each scene index, first
read the `active_processing` flag and break when it is `False`; then skip
the scene when `process` rejects it (the video loop skips scenes without a
completed image, line 573); otherwise the scene is worked on and its
per-scene `try/except` records a success or a failure without stopping the
loop.  Returns (successes, failures, remaining schedule). -/

def sceneLoop (process fail : Nat → Bool) :
    List Nat → Option Nat → Nat × Nat × Option Nat
  | [], c => (0, 0, c)
  | i :: rest, c =>
    match readFlag c with
    | (false, c1) => (0, 0, c1)
    | (true, c1) =>
      if process i then
        let r := sceneLoop process fail rest c1
        if fail i then (r.1, r.2.1 + 1, r.2.2) else (r.1 + 1, r.2.1, r.2.2)
      else
        sceneLoop process fail rest c1

/-- Outcome of one run of `process_project_pipeline` for one project. -/

structure PipelineResult where
  status : ProjectStatus
  imagesGenerated : Nat
  imagesFailed : Nat
  videosGenerated : Nat
  videosFailed : Nat
  /-- Whether the coroutine raises to its awaiter.  The whole body is
  wrapped in `try/except Exception` (lines 439-462) that records `FAILED`
  and does not re-raise, so this is `false` on every path. -/
  raised : Bool
  deriving DecidableEq

/-- Model of `process_project_pipeline` (main.py lines 430-473) for a project whose
text analysis extracts `n` scenes, under cancellation schedule `c0`:
text analysis (raising when `analysisFails`, caught by the handler at lines
459-462 which sets `FAILED`), then the image stage guarded by a flag read
(line 446), then the video stage guarded by a flag read (line 450), then a
final flag read (line 454) guarding the `COMPLETED` transition.  Each stage
sets its stage-completed status after its loop even when the loop broke on
cancellation (lines 557 and 610).  The video loop only works on scenes
whose image succeeded; it runs only when the image loop was not cancelled,
in which case every scene was attempted. -/

def process_project_pipeline (analysisFails : Bool) (imgFail vidFail : Nat → Bool)
    (n : Nat) (c0 : Option Nat) : PipelineResult :=
  if analysisFails then
    { status := ProjectStatus.failed, imagesGenerated := 0, imagesFailed := 0,
      videosGenerated := 0, videosFailed := 0, raised := false }
  else
    let p1 := readFlag c0
    let p2 :=
      if p1.1 then
        (ProjectStatus.images_generated,
          sceneLoop (fun _ => true) imgFail (List.range n) p1.2)
      else (ProjectStatus.text_analyzed, (0, 0, p1.2))
    let p3 := readFlag p2.2.2.2
    let p4 :=
      if p3.1 then
        (ProjectStatus.videos_generated,
          sceneLoop (fun i => ! imgFail i) vidFail (List.range n) p3.2)
      else (p2.1, (0, 0, p3.2))
    let p5 := readFlag p4.2.2.2
    { status := if p5.1 then ProjectStatus.completed else p4.1,
      imagesGenerated := p2.2.1, imagesFailed := p2.2.2.1,
      videosGenerated := p4.2.1, videosFailed := p4.2.2.1,
      raised := false }

/-! ### Batch processing (`main.py` lines 613-645) -/

/-- Observable outcome of `process_batch_pipeline`. -/

structure BatchOutcome where
  /-- Number of member pipelines that execute to a terminal state.
  `asyncio.gather` starts a task for every member; the semaphore only
  delays them. -/
  membersRun : Nat
  /-- Final status of each member project, in order. -/
  memberStatuses : List ProjectStatus
  /-- Whether any member failure propagates out of the batch run: only the
  `raise` at line 633 (taken when `process_project_pipeline` raises and
  `skip_errors` is false) can make `await asyncio.gather` at line 644
  re-raise. -/
  exceptionPropagated : Bool
  /-- Number of sibling `active_processing` flags cleared because another
  member failed: no statement in `process_batch_pipeline` or
  `process_single_project` writes a sibling flag. -/
  cancelFlagsSetBySiblingFailure : Nat
  deriving DecidableEq

/-- Model of `process_batch_pipeline` (main.py lines 613-645) for members that each
have one scene, no per-scene media failures and no cancellation;
`memberFails` records, per member, whether its text-analysis stage raises
(a stage failure inside the member pipeline). -/

def process_batch_pipeline (skipErrors : Bool) (memberFails : List Bool) :
    BatchOutcome :=
  let results := memberFails.map (fun f =>
    process_project_pipeline f (fun _ => false) (fun _ => false) 1 none)
  { membersRun := results.length,
    memberStatuses := results.map PipelineResult.status,
    exceptionPropagated := !skipErrors && results.any PipelineResult.raised,
    cancelFlagsSetBySiblingFailure := 0 }

/-! ### Start requests and the single-flight check (`main.py` lines 91-134,
195-233, 237-258, 430-473) -/

/-- Requests and scheduler steps touching one project id. -/

inductive ApiEvent where
  /-- Model of `POST /projects/{id}/start-processing` (lines 237-258): when
  `active_processing[id]` is truthy the handler raises HTTP 400; otherwise
  it queues `process_project_pipeline` via `background_tasks.add_task`. -/
  | startReq
  /-- Model of `POST /projects/{id}/upload-text` (lines 195-233): queues
  `process_project_pipeline` via `background_tasks.add_task` with no check
  of `active_processing`. -/
  | uploadReq
  /-- The framework runs one queued background task:
  `process_project_pipeline` starts, setting `active_processing[id] = True`
  at line 436 without checking it first. -/
  | beginTask
  /-- One running pipeline execution finishes: its `finally` block sets
  `active_processing[id] = False` (line 465). -/
  | endTask
  deriving DecidableEq

/-- State of one project id: the `active_processing` flag, the queued
background tasks, the running pipeline executions, and how many start
requests were rejected with HTTP 400. -/

structure ApiState where
  flag : Bool
  queued : Nat
  running : Nat
  rejected : Nat
  deriving DecidableEq

def api_step (s : ApiState) : ApiEvent → ApiState
  | ApiEvent.startReq =>
    if s.flag then { s with rejected := s.rejected + 1 }
    else { s with queued := s.queued + 1 }
  | ApiEvent.uploadReq => { s with queued := s.queued + 1 }
  | ApiEvent.beginTask =>
    if s.queued = 0 then s
    else { s with queued := s.queued - 1, running := s.running + 1, flag := true }
  | ApiEvent.endTask =>
    if s.running = 0 then s
    else { s with running := s.running - 1, flag := false }

def api_init : ApiState := { flag := false, queued := 0, running := 0, rejected := 0 }

def api_run (events : List ApiEvent) : ApiState := events.foldl api_step api_init

/-! ### Theorems -/

theorem extend_loop_length {α : Type} (fallback : α) :
    ∀ (fuel : Nat) (xs : List α),
      (extend_loop fallback fuel xs).length = xs.length + fuel := by
  intro fuel
  induction fuel with
  | zero => intro xs; simp [extend_loop]
  | succ n ih =>
    intro xs
    cases h : xs.getLast? with
    | some last => simp [extend_loop, h, ih]; omega
    | none => simp [extend_loop, h, ih]; omega

theorem extend_loop_getLast {α : Type} (fallback : α) :
    ∀ (fuel : Nat) (xs : List α) (l : α), xs.getLast? = some l →
      extend_loop fallback fuel xs = xs ++ List.replicate fuel l := by
  intro fuel
  induction fuel with
  | zero => intro xs l _; simp [extend_loop]
  | succ n ih =>
    intro xs l h
    rw [extend_loop, h]
    show extend_loop fallback n (xs ++ [l]) = xs ++ List.replicate (n + 1) l
    rw [ih (xs ++ [l]) l (by rw [List.getLast?_append]; simp)]
    simp [List.replicate_succ]

theorem extend_loop_nil {α : Type} (fallback : α) (fuel : Nat) :
    extend_loop fallback fuel [] = List.replicate fuel fallback := by
  cases fuel with
  | zero => simp [extend_loop]
  | succ n =>
    rw [extend_loop]
    simp only [List.getLast?_nil, List.nil_append]
    rw [extend_loop_getLast fallback n [fallback] fallback (by simp)]
    simp [List.replicate_succ]

/-- Claim C1 (counterexample).  The claim quantifies over every pair of input
lists and asserts that an empty input list is filled with fallback
placeholders and never left empty.  On the pair of empty lists the code
computes target length `max 0 0 = 0` and returns both lists empty, so the
"filled with placeholders, never left empty" part of the claim is false at
this input. -/
theorem balance_sequences_empty_counterexample :
    balance_sequences [] [] = ([], []) ∧
      ¬ ((balance_sequences [] []).1 ≠ [] ∧ (balance_sequences [] []).2 ≠ []) := by
  constructor
  · rfl
  · intro h
    exact h.1 rfl

/-- Claim C1 (amended).  `_balance_sequences` returns two lists whose lengths
are both `max` of the input lengths; a non-empty input list is extended by
repeating its last element; an empty input list is filled entirely with the
fallback placeholder (black image, 3-second silence); hence, provided at
least one input list is non-empty, neither output list is empty. -/
theorem balance_sequences_spec (images : List Img) (audio : List (Option ℚ)) :
    (balance_sequences images audio).1.length = max images.length audio.length ∧
    (balance_sequences images audio).2.length = max images.length audio.length ∧
    (∀ l, images.getLast? = some l →
      (balance_sequences images audio).1 =
        images ++ List.replicate (max images.length audio.length - images.length) l) ∧
    (images = [] →
      (balance_sequences images audio).1 =
        List.replicate audio.length placeholder_image) ∧
    (∀ l, audio.getLast? = some l →
      (balance_sequences images audio).2 =
        audio ++ List.replicate (max images.length audio.length - audio.length) l) ∧
    (audio = [] →
      (balance_sequences images audio).2 =
        List.replicate images.length (silence_bytes 3)) ∧
    (images ≠ [] ∨ audio ≠ [] →
      (balance_sequences images audio).1 ≠ [] ∧
        (balance_sequences images audio).2 ≠ []) := by
  have himg : (extend_loop placeholder_image
      (max images.length audio.length - images.length) images).length =
      max images.length audio.length := by
    rw [extend_loop_length]; omega
  have haud : (extend_loop (silence_bytes 3)
      (max images.length audio.length - audio.length) audio).length =
      max images.length audio.length := by
    rw [extend_loop_length]; omega
  have h1 : (balance_sequences images audio).1 =
      extend_loop placeholder_image
        (max images.length audio.length - images.length) images := by
    simp only [balance_sequences]
    exact List.take_of_length_le (le_of_eq himg)
  have h2 : (balance_sequences images audio).2 =
      extend_loop (silence_bytes 3)
        (max images.length audio.length - audio.length) audio := by
    simp only [balance_sequences]
    exact List.take_of_length_le (le_of_eq haud)
  refine ⟨by rw [h1, himg], by rw [h2, haud], ?_, ?_, ?_, ?_, ?_⟩
  · intro l hl
    rw [h1, extend_loop_getLast placeholder_image _ images l hl]
  · intro he
    subst he
    rw [h1, extend_loop_nil]
    simp
  · intro l hl
    rw [h2, extend_loop_getLast (silence_bytes 3) _ audio l hl]
  · intro he
    subst he
    rw [h2, extend_loop_nil]
    simp
  · intro hne
    have hpos : 0 < max images.length audio.length := by
      rcases hne with h | h
      · have := List.length_pos.mpr h
        exact lt_max_of_lt_left this
      · have := List.length_pos.mpr h
        exact lt_max_of_lt_right this
    constructor
    · intro he
      have hlen0 : (balance_sequences images audio).1.length = 0 := by
        rw [he]; rfl
      rw [h1, himg] at hlen0
      omega
    · intro he
      have hlen0 : (balance_sequences images audio).2.length = 0 := by
        rw [he]; rfl
      rw [h2, haud] at hlen0
      omega

/-- Witness for `balance_sequences_spec` at a concrete input: one image and
no audio yields one 3-second silence placeholder and non-empty outputs. -/
theorem balance_sequences_spec_witness :
    (balance_sequences [Img.pic 0] []).2 = List.replicate 1 (silence_bytes 3) ∧
      (balance_sequences [Img.pic 0] []).1 ≠ [] := by
  have h := balance_sequences_spec [Img.pic 0] []
  exact ⟨h.2.2.2.2.2.1 rfl, (h.2.2.2.2.2.2 (Or.inl (by simp))).1⟩

/-- Claim C9 (confirmed).  `_balance_sequences` on already equal-length,
non-empty inputs returns them unchanged: the target length equals both
lengths, neither while-loop runs, and the final slices are identities. -/
theorem balance_sequences_idempotent (images : List Img) (audio : List (Option ℚ))
    (_himg : images ≠ []) (_haud : audio ≠ [])
    (hlen : images.length = audio.length) :
    balance_sequences images audio = (images, audio) := by
  simp only [balance_sequences, hlen, max_self, Nat.sub_self]
  rw [extend_loop, extend_loop]
  simp [List.take_of_length_le, hlen]

/-- Witness for `balance_sequences_idempotent` at a concrete equal-length,
non-empty input pair. -/
theorem balance_sequences_idempotent_witness :
    balance_sequences [Img.pic 0, Img.pic 1] [some 2, none] =
      ([Img.pic 0, Img.pic 1], [some 2, none]) := by
  exact balance_sequences_idempotent [Img.pic 0, Img.pic 1] [some 2, none]
    (by simp) (by simp) (by simp)

theorem combine_clips_eq_audio (videos : List VideoTrackClip) :
    ∀ audios : List AudioTrackClip, videos.length = audios.length →
      combine_clips videos audios =
        audios.map (fun a => { duration := a.duration }) := by
  induction videos with
  | nil =>
    intro audios h
    cases audios with
    | nil => rfl
    | cons a t => simp at h
  | cons v vt ih =>
    intro audios h
    cases audios with
    | nil => simp at h
    | cons a t =>
      simp only [combine_clips, List.zipWith_cons_cons, List.map_cons]
      have := ih t (by simpa using h)
      simp only [combine_clips] at this
      rw [this]

theorem create_audio_clips_durations (audio : List (Option ℚ)) :
    (create_audio_clips audio).map (fun a => Segment.mk a.duration) =
      (get_audio_durations audio).map Segment.mk := by
  induction audio with
  | nil => rfl
  | cons d t ih =>
    cases d with
    | some dur => simpa [create_audio_clips, get_audio_durations] using ih
    | none => simpa [create_audio_clips, get_audio_durations] using ih

/-- Claim C2 (confirmed).  Every segment of the composed timeline has
duration equal to the decoded duration of its audio clip (3.0 seconds when
decoding fails); the image display time never drives a segment duration —
the timeline is the same for every `image_display_time` setting, because
`_combine_clips` overwrites the video clip duration with the audio clip
duration. -/
theorem compose_timeline_durations_from_audio (images : List Img)
    (audio : List (Option ℚ)) (image_display_time : Option ℚ)
    (hlen : images.length = audio.length) :
    compose_timeline images audio image_display_time =
      (get_audio_durations audio).map Segment.mk := by
  have hvidlen : ∀ durations : List ℚ, durations.length = audio.length →
      (create_image_clips images durations).length = audio.length := by
    intro durations hd
    simp [create_image_clips, hlen, hd]
  simp only [compose_timeline]
  cases image_display_time with
  | none =>
    rw [combine_clips_eq_audio _ _ (by
      rw [hvidlen (get_audio_durations audio) (by simp [get_audio_durations])]
      simp [create_audio_clips])]
    exact create_audio_clips_durations audio
  | some t =>
    rw [combine_clips_eq_audio _ _ (by
      rw [hvidlen (List.replicate images.length t) (by simp [hlen])]
      simp [create_audio_clips])]
    exact create_audio_clips_durations audio

/-- Witness for `compose_timeline_durations_from_audio`: two scenes, the
second audio clip failing to decode, with a fixed display time of 7 s that
is ignored; segment durations are the decoded 2 s and the default 3 s. -/
theorem compose_timeline_durations_from_audio_witness :
    compose_timeline [Img.pic 0, Img.pic 1] [some 2, none] (some 7) =
      [Segment.mk 2, Segment.mk 3] := by
  have h := compose_timeline_durations_from_audio [Img.pic 0, Img.pic 1]
    [some 2, none] (some 7) (by simp)
  rw [h]
  rfl

/-- Claim C8 (confirmed).  The total duration of the composed timeline equals
the sum of the per-segment audio-derived durations: fades act inside the
clips without changing their durations, and concatenation chains segments
end to end, so no global duration shrinkage occurs. -/
theorem total_duration_eq_sum (images : List Img) (audio : List (Option ℚ))
    (image_display_time : Option ℚ)
    (hlen : images.length = audio.length) :
    total_duration (compose_timeline images audio image_display_time) =
      (get_audio_durations audio).sum := by
  rw [compose_timeline_durations_from_audio images audio image_display_time hlen]
  simp only [total_duration, List.map_map]
  have hcomp : (Segment.duration ∘ Segment.mk) = id := rfl
  rw [hcomp, List.map_id]

/-- Witness for `total_duration_eq_sum`: durations 2 s and default 3 s sum
to 5 s. -/
theorem total_duration_eq_sum_witness :
    total_duration (compose_timeline [Img.pic 0, Img.pic 1] [some 2, none] none) =
      5 := by
  rw [total_duration_eq_sum [Img.pic 0, Img.pic 1] [some 2, none] none (by simp)]
  norm_num [get_audio_durations]

/-- Claim C5 (counterexample).  The claim asserts that on any final-encoding
failure the composer still reports success and yields a placeholder
artifact.  When `write_videofile` raises, `create_video_from_sequences`
instead returns `False` and writes no artifact at all: at one scene of 3 s
with a failing encode, the result is `(false, none)`, not a success with a
placeholder. -/
theorem create_video_encode_failure_counterexample :
    create_video_from_sequences [Img.pic 0] [some 3] none false true =
        (false, none) ∧
      ¬ ((create_video_from_sequences [Img.pic 0] [some 3] none false true).1 =
        true) := by
  constructor
  · rfl
  · intro h
    simp [create_video_from_sequences] at h

/-- Claim C7 (counterexample).  The claim asserts a fallback silence duration
of `max(1.0, 0.1 x character count)`.  For the two-character narration text
"hi" with failing synthesis, the code produces a silence of `2 * 0.1 = 0.2`
seconds, while the claimed policy demands `max(1.0, 0.2) = 1.0` seconds:
there is no 1.0-second floor in the code. -/
theorem generate_audio_fallback_counterexample :
    generate_audio true true ("hi") = AudioOut.silence (2 * (1 / 10)) ∧
      (2 * (1 / 10) : ℚ) ≠ max 1 (2 * (1 / 10)) := by
  constructor
  · rfl
  · intro h
    norm_num at h

/-- Claim C7 (amended).  When TTS synthesis raises, the fallback silence
substituted for the narration has duration exactly `0.1 x character count`
seconds, with no lower bound — the empty narration text yields a
zero-length silence; when the TTS model is not initialized the fallback is
a fixed 3.0-second silence, independent of the text. -/
theorem generate_audio_fallback_duration (text : String) (synthFails : Bool) :
    generate_audio true true text = AudioOut.silence ((text.length : ℚ) * (1 / 10)) ∧
    generate_audio false synthFails text = AudioOut.silence 3 ∧
    generate_audio true true ("") = AudioOut.silence 0 := by
  refine ⟨rfl, rfl, ?_⟩
  simp [generate_audio]

theorem generate_sequence_audio_loop_intersperse (ttsInitialized : Bool)
    (synthFails : Nat → Bool) (n : Nat) :
    ∀ (l : List SeqInput) (i : Nat), i + l.length = n →
      (∀ s ∈ l, s.raises = false) →
      generate_sequence_audio_loop ttsInitialized synthFails n true i l =
        List.intersperse (AudioOut.silence (1 / 2))
          ((l.enumFrom i).map
            (fun p => generate_audio ttsInitialized (synthFails p.1) p.2.text)) := by
  intro l
  induction l with
  | nil => intro i _ _; rfl
  | cons s rest ih =>
    intro i hn hok
    have hs : s.raises = false := hok s (by simp)
    cases rest with
    | nil =>
      have hi : ¬ i < n - 1 := by
        simp only [List.length_cons, List.length_nil] at hn
        omega
      rw [generate_sequence_audio_loop, if_neg (by simp [hs] : ¬ s.raises = true)]
      simp [generate_sequence_audio_loop, hi, List.enumFrom]
    | cons r rs =>
      have hi : i < n - 1 := by
        simp only [List.length_cons] at hn
        omega
      have hrest := ih (i + 1) (by simp at hn ⊢; omega)
        (fun t ht => hok t (by simp [ht]))
      rw [generate_sequence_audio_loop, if_neg (by simp [hs] : ¬ s.raises = true),
        hrest]
      simp [List.enumFrom, List.intersperse_cons_cons, hi]

theorem length_intersperse_audio (sep : AudioOut) :
    ∀ l : List AudioOut, (List.intersperse sep l).length = 2 * l.length - 1 := by
  intro l
  induction l with
  | nil => rfl
  | cons a t ih =>
    cases t with
    | nil => rfl
    | cons b u =>
      rw [List.intersperse_cons_cons]
      simp only [List.length_cons] at ih ⊢
      omega

/-- Claim C10 (confirmed).  For a non-empty list of `n` scene sequences in
which no per-sequence body raises, `generate_sequence_audio` with
`add_pauses = True` returns the per-sequence audio interleaved with an
extra 0.5-second silence after every element except the last, so the
result has `2 * n - 1` elements rather than `n`: the output no longer has
exactly one audio element per scene index. -/
theorem generate_sequence_audio_pause_count (ttsInitialized : Bool)
    (synthFails : Nat → Bool) (seqs : List SeqInput)
    (_hne : seqs ≠ []) (hok : ∀ s ∈ seqs, s.raises = false) :
    generate_sequence_audio ttsInitialized synthFails seqs true =
      List.intersperse (AudioOut.silence (1 / 2))
        ((seqs.enumFrom 0).map
          (fun p => generate_audio ttsInitialized (synthFails p.1) p.2.text)) ∧
    (generate_sequence_audio ttsInitialized synthFails seqs true).length =
      2 * seqs.length - 1 ∧
    (1 < seqs.length →
      (generate_sequence_audio ttsInitialized synthFails seqs true).length ≠
        seqs.length) := by
  have h := generate_sequence_audio_loop_intersperse ttsInitialized synthFails
    seqs.length seqs 0 (by simp) hok
  have hlen : (generate_sequence_audio ttsInitialized synthFails seqs true).length =
      2 * seqs.length - 1 := by
    show (generate_sequence_audio_loop ttsInitialized synthFails
      seqs.length true 0 seqs).length = 2 * seqs.length - 1
    rw [h, length_intersperse_audio]
    simp
  refine ⟨h, hlen, ?_⟩
  intro hgt
  rw [hlen]
  omega

/-- Witness for `generate_sequence_audio_pause_count`: two successful
sequences yield audio, a 0.5-second pause, audio — three elements, which is
2 * 2 - 1 and differs from 2. -/
theorem generate_sequence_audio_pause_count_witness :
    generate_sequence_audio true (fun _ => false)
        [SeqInput.mk ("a") false, SeqInput.mk ("b") false] true =
      [AudioOut.synthesized ("a"), AudioOut.silence (1 / 2),
        AudioOut.synthesized ("b")] ∧
    (generate_sequence_audio true (fun _ => false)
        [SeqInput.mk ("a") false, SeqInput.mk ("b") false] true).length = 3 := by
  have h := generate_sequence_audio_pause_count true (fun _ => false)
    [SeqInput.mk ("a") false, SeqInput.mk ("b") false] (by simp)
    (by intro s hs; simp at hs; rcases hs with h1 | h1 <;> simp [h1])
  constructor
  · rw [h.1]
    rfl
  · rw [h.2.1]
    rfl

theorem sceneLoop_sched_none (process fail : Nat → Bool) :
    ∀ l : List Nat, (sceneLoop process fail l none).2.2 = none := by
  intro l
  induction l with
  | nil => rfl
  | cons i rest ih =>
    show (sceneLoop process fail (i :: rest) none).2.2 = none
    rw [sceneLoop]
    simp only [readFlag]
    by_cases hp : process i = true
    · simp only [hp, if_true]
      by_cases hf : fail i = true
      · simp [hf, ih]
      · simp [hf, ih]
    · simp [hp, ih]

theorem sceneLoop_run :
    ∀ (l : List Nat) (b : Nat),
      sceneLoop (fun _ => true) (fun _ => false) l (some b) =
        (min l.length b, 0, some (b - l.length)) := by
  intro l
  induction l with
  | nil => intro b; simp [sceneLoop]
  | cons i rest ih =>
    intro b
    cases b with
    | zero =>
      rw [sceneLoop]
      simp [readFlag]
    | succ m =>
      rw [sceneLoop]
      simp only [readFlag, ih m, List.length_cons]
      simp only [Prod.ext_iff, Option.some.injEq]
      norm_num
      omega

/-- Claim C3 (counterexample).  The claim asserts that a cancelled pipeline
ends with status `Failed` (reason "cancelled").  With one scene and a
cancellation arriving after the image-stage scene check (schedule: two flag
reads yield `True`, later reads `False`), scene 1 completes, the video
stage and the completion transition are skipped, and the final status is
the intermediate stage status `IMAGES_GENERATED` — not `FAILED`, and no
"cancelled" reason is recorded anywhere in the code. -/
theorem pipeline_cancel_counterexample :
    process_project_pipeline false (fun _ => false) (fun _ => false) 1 (some 2) =
      { status := ProjectStatus.images_generated, imagesGenerated := 1,
        imagesFailed := 0, videosGenerated := 0, videosFailed := 0,
        raised := false } ∧
      ProjectStatus.images_generated ≠ ProjectStatus.failed := by
  constructor
  · rfl
  · intro h
    cases h

/-- Claim C3 (amended).  If cancellation is requested at any point before the
pipeline is finished (schedule `some k` with `k` smaller than the
`2 * n + 3` flag reads of an uncancelled run over `n` scenes), the scene at
which the cancellation is observed completes and no later scene starts:
exactly `min n (k - 1)` scenes get images and `min n (k - n - 2)` scenes
get videos.  The project is never marked `Completed`, but it is also never
marked `Failed`: it is left at the status of the stage that last ran —
`TEXT_ANALYZED`, `IMAGES_GENERATED` or `VIDEOS_GENERATED`. -/
theorem pipeline_cancellation (n k : Nat) (hk : k < 2 * n + 3) :
    (process_project_pipeline false (fun _ => false) (fun _ => false) n
        (some k)).status ≠ ProjectStatus.completed ∧
    (process_project_pipeline false (fun _ => false) (fun _ => false) n
        (some k)).status ≠ ProjectStatus.failed ∧
    (process_project_pipeline false (fun _ => false) (fun _ => false) n
        (some k)).imagesGenerated = min n (k - 1) ∧
    (process_project_pipeline false (fun _ => false) (fun _ => false) n
        (some k)).videosGenerated = min n (k - n - 2) ∧
    (process_project_pipeline false (fun _ => false) (fun _ => false) n
        (some k)).status =
      (if k = 0 then ProjectStatus.text_analyzed
        else if k ≤ n + 1 then ProjectStatus.images_generated
        else ProjectStatus.videos_generated) := by
  have hnot : (fun i => ! (fun _ : Nat => false) i) = (fun _ : Nat => true) := rfl
  cases k with
  | zero =>
    simp [process_project_pipeline, readFlag]
  | succ m =>
    have hres : process_project_pipeline false (fun _ => false) (fun _ => false) n
        (some (m + 1)) =
        { status :=
            if m ≤ n then ProjectStatus.images_generated
            else ProjectStatus.videos_generated,
          imagesGenerated := min n m, imagesFailed := 0,
          videosGenerated := min n (m - n - 1), videosFailed := 0,
          raised := false } := by
      simp only [process_project_pipeline, if_neg (Bool.false_ne_true), readFlag]
      simp only [if_true, hnot, sceneLoop_run, List.length_range]
      by_cases hmn : m ≤ n
      · have h0 : m - n = 0 := by omega
        simp [h0, readFlag, hmn]
      · have h1 : m - n = (m - n - 1) + 1 := by omega
        rw [h1]
        simp only [readFlag, if_true, sceneLoop_run, List.length_range]
        have h2 : m - n - 1 - n = 0 := by omega
        rw [h2]
        simp [readFlag, hmn]
    rw [hres]
    by_cases hmn : m ≤ n
    · simp only [if_pos hmn]
      refine ⟨?_, ?_, ?_, ?_, ?_⟩
      · intro h; cases h
      · intro h; cases h
      · show min n m = min n (m + 1 - 1)
        omega
      · show min n (m - n - 1) = min n (m + 1 - n - 2)
        omega
      · rw [if_neg (by omega : ¬ m + 1 = 0), if_pos (by omega : m + 1 ≤ n + 1)]
    · simp only [if_neg hmn]
      refine ⟨?_, ?_, ?_, ?_, ?_⟩
      · intro h; cases h
      · intro h; cases h
      · show min n m = min n (m + 1 - 1)
        omega
      · show min n (m - n - 1) = min n (m + 1 - n - 2)
        omega
      · rw [if_neg (by omega : ¬ m + 1 = 0), if_neg (by omega : ¬ m + 1 ≤ n + 1)]

/-- Witness for `pipeline_cancellation`: two scenes, cancellation after
three flag reads (3 < 7): both images complete, no video starts, final
status `IMAGES_GENERATED`. -/
theorem pipeline_cancellation_witness :
    (process_project_pipeline false (fun _ => false) (fun _ => false) 2
        (some 3)).status = ProjectStatus.images_generated ∧
    (process_project_pipeline false (fun _ => false) (fun _ => false) 2
        (some 3)).imagesGenerated = 2 ∧
    (process_project_pipeline false (fun _ => false) (fun _ => false) 2
        (some 3)).videosGenerated = 0 := by
  have h := pipeline_cancellation 2 3 (by omega)
  refine ⟨?_, ?_, ?_⟩
  · rw [h.2.2.2.2]
    rfl
  · rw [h.2.2.1]
    decide
  · rw [h.2.2.2.1]
    decide

theorem pipeline_uncancelled_completed (imgFail vidFail : Nat → Bool) (n : Nat) :
    (process_project_pipeline false imgFail vidFail n none).status =
      ProjectStatus.completed := by
  simp only [process_project_pipeline, if_neg (Bool.false_ne_true), readFlag]
  simp only [if_true, sceneLoop_sched_none, readFlag]

/-- Claim C5 (amended).  When combining the clips fails, the composer
substitutes a black placeholder clip of the fixed duration 10 s, proceeds
to encode it, and still reports success; but when the final encode itself
fails, `create_video_from_sequences` reports failure (returns `False`) to
its caller and produces no artifact.  Per-scene media failures never affect
the pipeline outcome: an uncancelled pipeline is marked `COMPLETED` no
matter how many scenes failed image or video generation. -/
theorem create_video_failure_modes (images : List Img)
    (audio : List (Option ℚ)) (image_display_time : Option ℚ) :
    (create_video_from_sequences images audio image_display_time true false =
        (true, some (Artifact.placeholderBlack 10))) ∧
    (∀ combineFails,
      create_video_from_sequences images audio image_display_time
        combineFails true = (false, none)) ∧
    (∀ (imgFail vidFail : Nat → Bool) (n : Nat),
      (process_project_pipeline false imgFail vidFail n none).status =
        ProjectStatus.completed) := by
  refine ⟨?_, ?_, ?_⟩
  · simp [create_video_from_sequences]
  · intro combineFails
    simp [create_video_from_sequences]
  · intro imgFail vidFail n
    exact pipeline_uncancelled_completed imgFail vidFail n

theorem pipeline_never_raises (analysisFails : Bool) (imgFail vidFail : Nat → Bool)
    (n : Nat) (c0 : Option Nat) :
    (process_project_pipeline analysisFails imgFail vidFail n c0).raised = false := by
  cases analysisFails <;> rfl

/-- Claim C6 (counterexample).  The claim asserts that under `failFast`
(`skip_errors = False`) the first member failure propagates out of the
batch and prevents the remaining members from starting, with running
siblings having their cancellation flag set.  In a two-member batch whose
first member fails text analysis, the member pipeline catches its own
exception (marking the project `FAILED` without re-raising), so nothing
propagates, the second member still runs to `COMPLETED`, and no sibling
cancellation flag is ever set. -/
theorem batch_failfast_counterexample :
    process_batch_pipeline false [true, false] =
      { membersRun := 2,
        memberStatuses := [ProjectStatus.failed, ProjectStatus.completed],
        exceptionPropagated := false,
        cancelFlagsSetBySiblingFailure := 0 } ∧
    ¬ ((process_batch_pipeline false [true, false]).exceptionPropagated = true ∧
        (process_batch_pipeline false [true, false]).membersRun ≤ 1) := by
  constructor
  · rfl
  · intro h
    exact absurd h.1 (by decide)

/-- Claim C6 (amended).  Member pipeline failures never escape
`process_project_pipeline` (its `try/except` marks the project `FAILED`
and does not re-raise), so under both error policies the batch runs every
member to a terminal state, the `failFast` re-raise at line 633 is dead
code and nothing ever propagates out of the batch run, and the batch never
sets a sibling cancellation flag.  Under `skipAndContinue` a failing
member is recorded as `FAILED` and does not cancel siblings — which also
holds, vacuously, under `failFast`. -/
theorem batch_error_policy (skipErrors : Bool) (memberFails : List Bool) :
    (process_batch_pipeline skipErrors memberFails).membersRun =
      memberFails.length ∧
    (process_batch_pipeline skipErrors memberFails).exceptionPropagated = false ∧
    (process_batch_pipeline skipErrors memberFails).cancelFlagsSetBySiblingFailure
      = 0 ∧
    (process_batch_pipeline skipErrors memberFails).memberStatuses =
      memberFails.map (fun f =>
        if f then ProjectStatus.failed else ProjectStatus.completed) := by
  refine ⟨by simp [process_batch_pipeline], ?_, rfl, ?_⟩
  · show (!skipErrors && (memberFails.map (fun f =>
      process_project_pipeline f (fun _ => false) (fun _ => false) 1 none)).any
        PipelineResult.raised) = false
    have hany : ∀ l : List Bool, (l.map (fun f =>
        process_project_pipeline f (fun _ => false) (fun _ => false) 1 none)).any
          PipelineResult.raised = false := by
      intro l
      induction l with
      | nil => rfl
      | cons f t ih => simp [List.any_cons, pipeline_never_raises, ih]
    rw [hany memberFails, Bool.and_false]
  · show (memberFails.map (fun f =>
      process_project_pipeline f (fun _ => false) (fun _ => false) 1 none)).map
        PipelineResult.status = _
    rw [List.map_map]
    apply List.map_congr_left
    intro f _
    cases f <;> rfl

/-- Claim C4 (counterexample).  The claim asserts that starting a pipeline
for a project with an active execution is rejected, not queued, and that
at most one execution is active per project id.  Trace: a start request
queues a pipeline; it begins running (flag set); a text upload then queues
a second pipeline — with zero rejections, even though an execution is
active — and when the queued task begins, two executions run concurrently
for the same project id. -/
theorem single_flight_counterexample :
    (api_run [ApiEvent.startReq, ApiEvent.beginTask]).flag = true ∧
    (api_run [ApiEvent.startReq, ApiEvent.beginTask, ApiEvent.uploadReq]).queued
      = 1 ∧
    (api_run [ApiEvent.startReq, ApiEvent.beginTask, ApiEvent.uploadReq]).rejected
      = 0 ∧
    (api_run [ApiEvent.startReq, ApiEvent.beginTask, ApiEvent.uploadReq,
        ApiEvent.beginTask]).running = 2 ∧
    ¬ (api_run [ApiEvent.startReq, ApiEvent.beginTask, ApiEvent.uploadReq,
        ApiEvent.beginTask]).running ≤ 1 := by
  refine ⟨rfl, rfl, rfl, rfl, ?_⟩
  intro h
  exact absurd h (by decide)

/-- Claim C4 (amended).  The start-processing endpoint itself is
single-flight: when the `active_processing` flag of the project is set, a
start request is rejected with HTTP 400 and changes nothing but the
rejection count — the queue, the running executions and the flag are left
unchanged.  However, upload requests queue a pipeline without any check,
and the flag is set only when a queued task begins running, so more than
one pipeline execution can be active for the same project id. -/
theorem start_processing_rejects (s : ApiState) (h : s.flag = true) :
    api_step s ApiEvent.startReq = { s with rejected := s.rejected + 1 } := by
  simp [api_step, h]

/-- Witness for `start_processing_rejects`: with one running execution,
a start request only increments the rejection count. -/
theorem start_processing_rejects_witness :
    api_step { flag := true, queued := 0, running := 1, rejected := 0 }
        ApiEvent.startReq =
      { flag := true, queued := 0, running := 1, rejected := 1 } :=
  start_processing_rejects
    { flag := true, queued := 0, running := 1, rejected := 0 } rfl
